import Mathlib

/-!
Verification of the sitemap-inspector (`src/main.py`) against its
natural-language specification.

The development shallowly embeds the parsing / aggregation core of the
program:

* XML documents, as produced by `BeautifulSoup(content, 'xml')`, are modelled
  as trees of elements, text nodes and CDATA nodes.  The lxml XML builder used
  by BeautifulSoup runs with `recover=True`, so *every* input string (well
  formed or not) yields a tree; `SoupDoc` keeps track of whether the original
  input was well-formed XML.
* BeautifulSoup navigation (`find`, `find_all`, `.text`) is embedded as
  recursive functions over those trees.  Python truthiness of a bs4 `Tag`
  (`if tag:`) is length-based: a tag with no contents is falsy.
* `datetime` values are modelled as a wall-clock reading (seconds) plus an
  optional UTC offset (`none` = naive).  `dateutil.parser.parse` is modelled,
  restricted to ISO-8601 date / date-time inputs; anything else is a parse
  failure, mirroring dateutil raising `ParserError`.
* The fan-out aggregation over child sitemaps is modelled by an explicit
  per-child behaviour (fetch result), the per-child outcome dictionary, and
  the merge loop that folds outcomes into the global aggregate.
-/

/-! ## XML tree model (the result of `BeautifulSoup(content, 'xml')`) -/

/-- A node of the parsed XML tree: an element with a (qualified) tag name and
children, a text node, or a CDATA section (lxml is configured with
`strip_cdata=False`, so CDATA survives as a navigable string). -/
inductive XmlNode where
  | elem (name : String) (children : List XmlNode)
  | text (s : String)
  | cdata (s : String)

/-- Children of a node (text nodes have none). -/
def XmlNode.contents : XmlNode → List XmlNode
  | .elem _ cs => cs
  | _ => []

mutual

/-- Self-and-descendants of a node, in document (pre-)order. -/
def XmlNode.descendantsSelf : XmlNode → List XmlNode
  | .elem n cs => .elem n cs :: descendantsSelfList cs
  | .text s => [.text s]
  | .cdata s => [.cdata s]

/-- Self-and-descendants of a forest, in document (pre-)order. -/
def descendantsSelfList : List XmlNode → List XmlNode
  | [] => []
  | x :: xs => x.descendantsSelf ++ descendantsSelfList xs

end

mutual

/-- `tag.text` / `tag.get_text()`: concatenation of all string descendants,
including the content of CDATA sections. -/
def XmlNode.getText : XmlNode → String
  | .elem _ cs => getTextList cs
  | .text s => s
  | .cdata s => s

/-- Concatenated text of a forest. -/
def getTextList : List XmlNode → String
  | [] => ""
  | x :: xs => x.getText ++ getTextList xs

end

/-- Does this node match a tag-name query?  Only elements have names, matching
a bs4 name filter, which never matches navigable strings. -/
def matchesName (name : String) : XmlNode → Bool
  | .elem n _ => n = name
  | _ => false

/-- Does this node match a bs4 function filter on the tag name (only elements
are considered)? -/
def matchesPred (p : String → Bool) : XmlNode → Bool
  | .elem n _ => p n
  | _ => false

/-- `tag.find_all(name)`: all matching descendants of a tag, document order. -/
def findAllIn (t : XmlNode) (name : String) : List XmlNode :=
  (descendantsSelfList t.contents).filter (matchesName name)

/-- `tag.find(name)`: first matching descendant of a tag, or `None`. -/
def findIn (t : XmlNode) (name : String) : Option XmlNode :=
  (findAllIn t name).head?

/-- `soup.find_all(name)`: all matching nodes of the document (the top-level
elements are themselves descendants of the soup object). -/
def findAllDoc (roots : List XmlNode) (name : String) : List XmlNode :=
  (descendantsSelfList roots).filter (matchesName name)

/-- `soup.find(name)`: first matching node of the document, or `None`. -/
def findDoc (roots : List XmlNode) (name : String) : Option XmlNode :=
  (findAllDoc roots name).head?

/-- `tag.find_all(lambda tag: ...)`: all element descendants whose name
satisfies a predicate. -/
def findAllPredIn (t : XmlNode) (p : String → Bool) : List XmlNode :=
  (descendantsSelfList t.contents).filter (matchesPred p)

/-- Python truthiness of a bs4 find result: `None` is falsy, and a `Tag` is
falsy exactly when it has no contents (bs4 `Tag.__len__` counts contents and
no `__bool__` is defined). -/
def tagTruthy : Option XmlNode → Bool
  | none => false
  | some t => !t.contents.isEmpty

/-- Python's `a or b` over bs4 find results: the first operand if truthy,
otherwise the second operand (whatever it is). -/
def pyOr (a b : Option XmlNode) : Option XmlNode :=
  if tagTruthy a then a else b

/-- Python's `a or b` over result lists of `find_all`: the first list if
non-empty, otherwise the second. -/
def pyOrList (a b : List XmlNode) : List XmlNode :=
  if a.isEmpty then b else a

/-- `if x:` on a bs4 find result, reshaped as an `Option`: the tag when it is
truthy, `none` otherwise. -/
def truthyOpt (o : Option XmlNode) : Option XmlNode :=
  if tagTruthy o then o else none

/-- Does the first list occur at the head of the second? -/
def startsWithL : List Char → List Char → Bool
  | [], _ => true
  | _ :: _, [] => false
  | p :: ps, c :: cs => p == c && startsWithL ps cs

/-- Does the first list occur contiguously anywhere in the second? -/
def occursIn (pat : List Char) : List Char → Bool
  | [] => pat.isEmpty
  | c :: cs => startsWithL pat (c :: cs) || occursIn pat cs

/-- Python's `'pat' in s` substring test. -/
def substrB (pat s : String) : Bool :=
  occursIn pat.toList s.toList

/-- ASCII whitespace, as stripped by Python's `str.strip()`. -/
def isPySpace (c : Char) : Bool :=
  c = ' ' ∨ c = '\t' ∨ c = '\n' ∨ c = '\r' ∨ c = '\x0b' ∨ c = '\x0c'

/-- Python's `s.strip()` on a character list. -/
def pyStripL (l : List Char) : List Char :=
  ((l.dropWhile isPySpace).reverse.dropWhile isPySpace).reverse

/-- Python's `s.strip()`. -/
def pyStrip (s : String) : String :=
  ⟨pyStripL s.toList⟩

/-- Python's `s.split(sep)` for a one-character separator, on character
lists. -/
def splitOnCharL (sep : Char) : List Char → List (List Char)
  | [] => [[]]
  | c :: cs =>
    if c = sep then [] :: splitOnCharL sep cs
    else
      match splitOnCharL sep cs with
      | [] => [[c]]
      | h :: t => (c :: h) :: t

/-- Python's `s.split(sep)` for a one-character separator. -/
def pySplit (s : String) (sep : Char) : List String :=
  (splitOnCharL sep s.toList).map (fun l => ⟨l⟩)

/-- The characters after the first occurrence of `pat` (empty when `pat`
does not occur). -/
def afterFirstL (pat : List Char) : List Char → List Char
  | [] => []
  | c :: cs =>
    if startsWithL pat (c :: cs) then (c :: cs).drop pat.length
    else afterFirstL pat cs

/-- The characters before the next occurrence of `pat`. -/
def untilNextL (pat : List Char) : List Char → List Char
  | [] => []
  | c :: cs =>
    if startsWithL pat (c :: cs) then []
    else c :: untilNextL pat cs

/-- Python's `s.split(pat)[1]`: the piece between the first and second
occurrences of the separator (only used when the separator is known to
occur). -/
def splitSecond (s pat : String) : String :=
  ⟨untilNextL pat.toList (afterFirstL pat.toList s.toList)⟩

/-- The document produced by `BeautifulSoup(content, 'xml')` on a non-empty
input string.  lxml runs with `recover=True`, so input that is not well-formed
XML is *recovered* into a (possibly empty) tree instead of raising; the
constructor records which case applies. -/
inductive SoupDoc where
  | wellFormed (roots : List XmlNode)
  | recovered (roots : List XmlNode)

/-- The top-level forest of the parsed document. -/
def SoupDoc.roots : SoupDoc → List XmlNode
  | .wellFormed rs => rs
  | .recovered rs => rs

/-- Was the original input not well-formed XML? -/
def SoupDoc.isMalformed : SoupDoc → Bool
  | .wellFormed _ => false
  | .recovered _ => true

/-! ## Python `datetime` model and `dateutil.parser.parse` -/

/-- A Python `datetime`: the wall-clock reading in seconds since the epoch of
the clock face, and an optional UTC offset in seconds (`none` = naive,
`some o` = aware with `utcoffset = o`).  The absolute instant of an aware
value is `wall - o`. -/
structure PyDateTime where
  wall : Int
  tz : Option Int
deriving DecidableEq

/-- `pytz.UTC.localize`: attach UTC to a naive datetime, keeping the wall
clock reading. -/
def utcLocalize (d : PyDateTime) : PyDateTime :=
  { wall := d.wall, tz := some 0 }

/-- Digits of a string parsed as a natural number; `none` if the string is
empty or contains a non-digit. -/
def digitsToNat (cs : List Char) : Option Nat :=
  if cs ≠ [] ∧ cs.all Char.isDigit then
    some (cs.foldl (fun n c => n * 10 + (c.toNat - 48)) 0)
  else none

/-- Days in a month of the proleptic Gregorian calendar. -/
def daysInMonth (y m : Nat) : Nat :=
  if m = 2 then
    if y % 4 = 0 ∧ (y % 100 ≠ 0 ∨ y % 400 = 0) then 29 else 28
  else if m = 4 ∨ m = 6 ∨ m = 9 ∨ m = 11 then 30
  else 31

/-- Days between 1970-01-01 and y-m-d in the proleptic Gregorian calendar
(civil-from-days construction, for years ≥ 1). -/
def daysFromCivil (y m d : Nat) : Int :=
  let yAdj : Int := (y : Int) - (if m ≤ 2 then 1 else 0)
  let era : Int := yAdj / 400
  let yoe : Int := yAdj - era * 400
  let mp : Int := ((m : Int) + 9) % 12
  let doy : Int := (153 * mp + 2) / 5 + (d : Int) - 1
  let doe : Int := yoe * 365 + yoe / 4 - yoe / 100 + doy
  era * 146097 + doe - 719468

/-- Parse `"YYYY-MM-DD"` into a day count since the epoch. -/
def parseIsoDate (s : String) : Option Int :=
  match pySplit s '-' with
  | [ys, ms, ds] =>
    match digitsToNat ys.toList, digitsToNat ms.toList, digitsToNat ds.toList with
    | some y, some m, some d =>
      if 1 ≤ y ∧ 1 ≤ m ∧ m ≤ 12 ∧ 1 ≤ d ∧ d ≤ daysInMonth y m then
        some (daysFromCivil y m d)
      else none
    | _, _, _ => none
  | _ => none

/-- Parse `"HH:MM"` or `"HH:MM:SS"` into seconds past midnight. -/
def parseIsoTime (s : String) : Option Nat :=
  match pySplit s ':' with
  | [hs, ms] =>
    match digitsToNat hs.toList, digitsToNat ms.toList with
    | some h, some m => if h ≤ 23 ∧ m ≤ 59 then some (h * 3600 + m * 60) else none
    | _, _ => none
  | [hs, ms, ss] =>
    match digitsToNat hs.toList, digitsToNat ms.toList, digitsToNat ss.toList with
    | some h, some m, some s2 =>
      if h ≤ 23 ∧ m ≤ 59 ∧ s2 ≤ 60 then some (h * 3600 + m * 60 + s2) else none
    | _, _, _ => none
  | _ => none

/-- Split a time-with-offset string (for example `"10:20:30Z"`,
`"10:20:30+02:00"`, `"10:20:30-05:00"`, `"10:20:30"`) into the plain time part
and the optional UTC offset in seconds (`none` = no offset, naive). -/
def splitTimeOffset (t : String) : Option (String × Option Int) :=
  if t.toList.getLast? = some 'Z' ∨ t.toList.getLast? = some 'z' then
    some (⟨t.toList.dropLast⟩, some 0)
  else
    match pySplit t '+' with
    | [base, off] =>
      match parseIsoTime off with
      | some o => some (base, some (o : Int))
      | none => none
    | [_] =>
      match pySplit t '-' with
      | [base, off] =>
        match parseIsoTime off with
        | some o => some (base, some (-(o : Int)))
        | none => none
      | [_] => some (t, none)
      | _ => none
    | _ => none

/-- Model of `dateutil.parser.parse`, restricted to ISO-8601 dates and
date-times (date `YYYY-MM-DD`, optional time separated by `T` or a space,
optional `Z` / `±HH:MM` offset).  Inputs outside this fragment are parse
failures, mirroring dateutil raising `ParserError`.  A date without a time
parses to midnight, naive, exactly as dateutil does. -/
def dateutilParse (s : String) : Option PyDateTime :=
  let s := pyStrip s
  let pieces : Option (String × Option String) :=
    if substrB "T" s then
      match pySplit s 'T' with
      | [d, t] => some (d, some t)
      | _ => none
    else if substrB " " s then
      match pySplit s ' ' with
      | [d, t] => some (d, some t)
      | _ => none
    else some (s, none)
  match pieces with
  | none => none
  | some (ds, ts) =>
    match parseIsoDate ds with
    | none => none
    | some days =>
      match ts with
      | none => some { wall := days * 86400, tz := none }
      | some t =>
        match splitTimeOffset t with
        | none => none
        | some (base, off) =>
          match parseIsoTime base with
          | none => none
          | some secs => some { wall := days * 86400 + (secs : Int), tz := off }

/-! ## The sitemap document parser (`src/main.py` lines 383-484) -/

/-- Tag name of an element (query helpers only ever apply this to elements). -/
def XmlNode.tagName : XmlNode → String
  | .elem n _ => n
  | _ => ""

/-- The per-category tag inventory accumulated by `parse_sitemap`
(`tags_info`, a `defaultdict(set)`). -/
structure TagsInfo where
  standard : Finset String
  image : Finset String
  video : Finset String
  news : Finset String
  language : Finset String
  mobile : Finset String
deriving DecidableEq

/-- The empty tag inventory. -/
def TagsInfo.empty : TagsInfo := ⟨∅, ∅, ∅, ∅, ∅, ∅⟩

/-- The 4-tuple returned by `parse_sitemap`:
`(unique_urls, last_mod_dates, tags_info, has_time_info)`.  The third
component is `None` exactly on the early return for falsy input, and a
dictionary (`dict(tags_info)`) otherwise. -/
structure ParseResult where
  urls : Finset String
  dates : List PyDateTime
  tags : Option TagsInfo
  hasTime : Bool
deriving DecidableEq

/-- The error a sitemap parser could signal for input that is not well-formed
XML.  (The embedding shows no code path of `parse_sitemap` produces it.) -/
inductive SitemapError where
  | malformedDocument
deriving DecidableEq

/-- `is_sitemap_index` (line 383): `soup.find('sitemapindex') is not None` —
an identity test against `None`, not a truthiness test. -/
def is_sitemap_index (doc : SoupDoc) : Bool :=
  (findDoc doc.roots "sitemapindex").isSome

/-- One entry of a parsed sitemap index: `{'url': ..., 'lastmod': ...}`. -/
structure IndexEntry where
  url : String
  lastmod : Option PyDateTime
deriving DecidableEq

/-- The loop body of `parse_sitemap_index` (lines 392-401) over the list of
`<sitemap>` elements.  `if loc:` is bs4 truthiness; the `lastmod` field is
`parser.parse(last_mod.text) if last_mod else None`, whose `parser.parse` is
*not* guarded by any `try`: a parse failure raises out of the whole function,
modelled as `none`. -/
def indexEntries : List XmlNode → Option (List IndexEntry)
  | [] => some []
  | s :: rest =>
    match truthyOpt (findIn s "loc") with
    | none => indexEntries rest
    | some l =>
      match truthyOpt (findIn s "lastmod") with
      | none => (indexEntries rest).map (fun es => ⟨l.getText, none⟩ :: es)
      | some t =>
        match dateutilParse t.getText with
        | none => none
        | some d => (indexEntries rest).map (fun es => ⟨l.getText, some d⟩ :: es)

/-- `parse_sitemap_index` (line 387): collect one entry per `<sitemap>`
element that has a truthy `<loc>`; `none` models the uncaught
`dateutil` exception on an unparseable `lastmod`. -/
def parse_sitemap_index (doc : SoupDoc) : Option (List IndexEntry) :=
  indexEntries (findAllDoc doc.roots "sitemap")

/-- `loc = url.find('loc') or url.find('ns:loc') or url.find('default:loc')`
(line 426). -/
def locChain (e : XmlNode) : Option XmlNode :=
  pyOr (findIn e "loc") (pyOr (findIn e "ns:loc") (findIn e "default:loc"))

/-- The corresponding chain for `lastmod` (line 427). -/
def lastmodChain (e : XmlNode) : Option XmlNode :=
  pyOr (findIn e "lastmod") (pyOr (findIn e "ns:lastmod") (findIn e "default:lastmod"))

/-- The corresponding chain for `changefreq` (line 449). -/
def changefreqChain (e : XmlNode) : Option XmlNode :=
  pyOr (findIn e "changefreq") (pyOr (findIn e "ns:changefreq") (findIn e "default:changefreq"))

/-- The corresponding chain for `priority` (line 450). -/
def priorityChain (e : XmlNode) : Option XmlNode :=
  pyOr (findIn e "priority") (pyOr (findIn e "ns:priority") (findIn e "default:priority"))

/-- The accumulator of the `for url in urls:` loop of `parse_sitemap`. -/
structure LeafState where
  unique_urls : Finset String
  last_mod_dates : List PyDateTime
  has_time_info : Bool
  tags_info : TagsInfo

/-- Lines 429-433: resolve the location element; when truthy, strip its text
and add it to `unique_urls` unless empty. -/
def entryLocUpdate (st : LeafState) (e : XmlNode) : LeafState :=
  match truthyOpt (locChain e) with
  | some t =>
    let url_text := pyStrip t.getText
    if url_text ≠ "" then { st with unique_urls := insert url_text st.unique_urls } else st
  | none => st

/-- Lines 452-453: record `changefreq` when the element is present (truthy). -/
def updChangefreq (st : LeafState) (e : XmlNode) : LeafState :=
  if tagTruthy (changefreqChain e) then
    { st with tags_info := { st.tags_info with standard := insert "changefreq" st.tags_info.standard } }
  else st

/-- Lines 454-455: record `priority` when the element is present (truthy). -/
def updPriority (st : LeafState) (e : XmlNode) : LeafState :=
  if tagTruthy (priorityChain e) then
    { st with tags_info := { st.tags_info with standard := insert "priority" st.tags_info.standard } }
  else st

/-- Lines 457-461: record the suffix of every `image:`-prefixed descendant. -/
def updImage (st : LeafState) (e : XmlNode) : LeafState :=
  let image_tags := findAllPredIn e (fun n => substrB "image:" n)
  if image_tags.isEmpty then st else
    { st with tags_info := { st.tags_info with
        image := image_tags.foldl (fun s t => insert (splitSecond t.tagName "image:") s) st.tags_info.image } }

/-- Lines 463-467: record the suffix of every `video:`-prefixed descendant. -/
def updVideo (st : LeafState) (e : XmlNode) : LeafState :=
  let video_tags := findAllPredIn e (fun n => substrB "video:" n)
  if video_tags.isEmpty then st else
    { st with tags_info := { st.tags_info with
        video := video_tags.foldl (fun s t => insert (splitSecond t.tagName "video:") s) st.tags_info.video } }

/-- Lines 469-473: record the suffix of every `news:`-prefixed descendant. -/
def updNews (st : LeafState) (e : XmlNode) : LeafState :=
  let news_tags := findAllPredIn e (fun n => substrB "news:" n)
  if news_tags.isEmpty then st else
    { st with tags_info := { st.tags_info with
        news := news_tags.foldl (fun s t => insert (splitSecond t.tagName "news:") s) st.tags_info.news } }

/-- Lines 475-478: record `alternate` when any `xhtml:link` is present. -/
def updLanguage (st : LeafState) (e : XmlNode) : LeafState :=
  let xhtml_links := findAllIn e "xhtml:link"
  if xhtml_links.isEmpty then st else
    { st with tags_info := { st.tags_info with language := insert "alternate" st.tags_info.language } }

/-- Lines 480-482: record `mobile` when `mobile:mobile` is present (truthy). -/
def updMobile (st : LeafState) (e : XmlNode) : LeafState :=
  if tagTruthy (findIn e "mobile:mobile") then
    { st with tags_info := { st.tags_info with mobile := insert "mobile" st.tags_info.mobile } }
  else st

/-- Lines 448-482: the tag-inventory section of the entry loop, the seven
detection blocks applied in source order. -/
def entryTagsUpdate (st : LeafState) (e : XmlNode) : LeafState :=
  updMobile (updLanguage (updNews (updVideo (updImage (updPriority (updChangefreq st e) e) e) e) e) e) e

/-- One iteration of the `for url in urls:` loop (lines 424-482).  The
`lastmod` block (435-446) sets `has_time_info` *before* attempting the date
parse, so the flag survives a parse failure; `except: continue` then skips
the tag-inventory section for that entry. -/
def processUrlEntry (st : LeafState) (e : XmlNode) : LeafState :=
  let st := entryLocUpdate st e
  match truthyOpt (lastmodChain e) with
  | none => entryTagsUpdate st e
  | some t =>
    let date_str := pyStrip t.getText
    let hti := if substrB "T" date_str || substrB " " date_str || substrB ":" date_str then
        true
      else st.has_time_info
    match dateutilParse date_str with
    | none => { st with has_time_info := hti }
    | some d =>
      let d := if d.tz = none then utcLocalize d else d
      entryTagsUpdate
        { st with has_time_info := hti, last_mod_dates := st.last_mod_dates ++ [d] } e

/-- Lines 410-417: locate the `urlset` element (namespace-prefix fallback,
bs4 truthiness on the result) and collect the `url` entry elements. -/
def entriesOf (roots : List XmlNode) : List XmlNode :=
  let urlset := pyOr (findDoc roots "urlset") (pyOr (findDoc roots "ns:urlset") (findDoc roots "default:urlset"))
  match truthyOpt urlset with
  | some u => pyOrList (findAllIn u "url") (pyOrList (findAllIn u "ns:url") (findAllIn u "default:url"))
  | none => pyOrList (findAllDoc roots "url") (pyOrList (findAllDoc roots "ns:url") (findAllDoc roots "default:url"))

/-- The body of `parse_sitemap` on truthy input: run the entry loop and
return the 4-tuple, with `dict(tags_info)` always an actual dictionary. -/
def parseLeafSoup (roots : List XmlNode) : ParseResult :=
  let st := (entriesOf roots).foldl processUrlEntry ⟨∅, [], false, TagsInfo.empty⟩
  ⟨st.unique_urls, st.last_mod_dates, some st.tags_info, st.has_time_info⟩

/-- `parse_sitemap` (lines 405-484).  Falsy input (`None` or the empty
string, modelled as `none`) takes the early return `set(), [], None, False`;
any other input is soup-parsed (lxml `recover=True`, so also for input that
is not well-formed XML) and processed.  No code path raises, so the result is
always `.ok`. -/
def parse_sitemap (xml_content : Option SoupDoc) : Except SitemapError ParseResult :=
  match xml_content with
  | none => .ok ⟨∅, [], none, false⟩
  | some doc => .ok (parseLeafSoup doc.roots)

/-! ## Fan-out aggregation (`fetch_and_parse_sitemap`, lines 486-513, and the
`ThreadPoolExecutor` merge loop, lines 710-728) -/

/-- The behaviour of the fetch layer for one child URL, the input that decides
which branch of `fetch_and_parse_sitemap` runs: `ok` models `fetch_xml`
returning truthy decoded content (already soup-parsed here) together with its
diagnostic messages; `fetchFail` models `fetch_xml` returning `None` (network
error, oversize, bad status or decode failure) with its messages; `raise`
models any other exception escaping the body (caught by the `except`). -/
inductive ChildBehavior where
  | ok (doc : SoupDoc) (messages : List (String × String))
  | fetchFail (messages : List (String × String))
  | raise (err : String)

/-- The per-child result dictionary built by `fetch_and_parse_sitemap`:
either a success record or a failure record. -/
inductive Outcome where
  | success (url : String) (result : ParseResult) (messages : List (String × String))
  | failure (url : String) (error : String) (messages : List (String × String))

/-- Is this outcome a success record (`result['success'] == True`)? -/
def Outcome.isSuccess : Outcome → Bool
  | .success _ _ _ => true
  | .failure _ _ _ => false

/-- Is this outcome a failure record? -/
def Outcome.isFailure : Outcome → Bool
  | .success _ _ _ => false
  | .failure _ _ _ => true

/-- `fetch_and_parse_sitemap` (lines 486-513): fetch, parse on truthy
content, wrap everything in `try`/`except` so that every branch produces an
outcome dictionary for this child and nothing propagates.  The `except`
branch returns `messages: []`. -/
def fetch_and_parse_sitemap (sitemap_url : String) (b : ChildBehavior) : Outcome :=
  match b with
  | .ok doc messages =>
    match parse_sitemap (some doc) with
    | .ok r => .success sitemap_url r messages
    | .error _ => .failure sitemap_url "XML parse error" []
  | .fetchFail messages => .failure sitemap_url "Failed to fetch XML content" messages
  | .raise e => .failure sitemap_url e []

/-- The executor loop (lines 714-721) collects exactly one outcome per
submitted child URL. -/
def aggregateOutcomes (children : List (String × ChildBehavior)) : List Outcome :=
  children.map (fun c => fetch_and_parse_sitemap c.1 c.2)

/-- The global accumulators of the merge loop: `all_urls`, `all_dates`,
`any_has_time_info` (lines 710-712). -/
structure Agg where
  all_urls : Finset String
  all_dates : List PyDateTime
  any_has_time_info : Bool

/-- One iteration of the merge loop (lines 722-728): successes contribute
their URL set (set union), their dates (list extend) and their time flag;
failures contribute nothing. -/
def mergeStep (acc : Agg) (r : Outcome) : Agg :=
  match r with
  | .failure _ _ _ => acc
  | .success _ res _ =>
    let acc := if res.urls = ∅ then acc else { acc with all_urls := acc.all_urls ∪ res.urls }
    let acc := if res.dates.isEmpty then acc else { acc with all_dates := acc.all_dates ++ res.dates }
    let acc := if res.hasTime then { acc with any_has_time_info := true } else acc
    acc

/-- The whole merge loop over the outcomes in completion order. -/
def mergeAll (outcomes : List Outcome) : Agg :=
  outcomes.foldl mergeStep ⟨∅, [], false⟩

/-! ## Statistics summarizer (`analyze_dates`, lines 515-546) -/

/-- The four recency-bucket counters returned by `analyze_dates`. -/
structure DateStats where
  h24 : Nat
  week : Nat
  month : Nat
  year : Nat
deriving DecidableEq

/-- `date.astimezone(pytz.UTC)` applied under the guard
`if date.tzinfo != pytz.UTC` (lines 534-535): an aware datetime is converted
to the same instant with offset 0; a naive datetime is interpreted in the
process-local timezone `localOff` (Python semantics of `astimezone` on naive
values).  A value carrying `dateutil`'s `tzutc` (offset 0 but a different
object from `pytz.UTC`) is re-converted, which is the identity on this
representation. -/
def toUTC (localOff : Int) (d : PyDateTime) : PyDateTime :=
  if d.tz = some 0 then d
  else
    match d.tz with
    | some o => ⟨d.wall - o, some 0⟩
    | none => ⟨d.wall - localOff, some 0⟩

/-- One iteration of the `for date in dates:` loop of `analyze_dates` (lines
533-544), with the loop-invariant thresholds `last_24h = now - 1 day`,
`last_week = now - 7 days`, `last_month = now - 30 days`,
`last_year = now - 365 days` inlined: convert the date to UTC, then test each
look-back window independently and increment its counter. -/
def analyzeStep (localOff now : Int) (st : DateStats) (date : PyDateTime) : DateStats :=
  let date := toUTC localOff date
  { h24 := st.h24 + (if date.wall ≥ now - 86400 then 1 else 0)
    week := st.week + (if date.wall ≥ now - 7 * 86400 then 1 else 0)
    month := st.month + (if date.wall ≥ now - 30 * 86400 then 1 else 0)
    year := st.year + (if date.wall ≥ now - 365 * 86400 then 1 else 0) }

/-- `analyze_dates` (lines 515-546): `now` is the current instant in UTC
(seconds); an empty date list short-circuits to all-zero counters, otherwise
the loop accumulates the four bucket counters from zero. -/
def analyze_dates (localOff now : Int) (dates : List PyDateTime) : DateStats :=
  if dates.isEmpty then ⟨0, 0, 0, 0⟩
  else dates.foldl (analyzeStep localOff now) ⟨0, 0, 0, 0⟩

/-! ## Charset-fallback decoding (`fetch_xml` lines 363-376,
`process_uploaded_file` lines 264-277) -/

/-- A byte of fetched or uploaded content. -/
abbrev Byte := Fin 256

/-- Is this a UTF-8 continuation byte (`10xxxxxx`)? -/
def isCont (b : Byte) : Bool :=
  128 ≤ b.val && b.val < 192

/-- Strict UTF-8 decoding of a byte sequence (the behaviour of
`bytes.decode('utf-8')`): rejects stray continuation bytes, overlong forms,
surrogates and out-of-range code points. -/
def utf8DecodeChars : List Byte → Option (List Char)
  | [] => some []
  | b :: rest =>
    let n := b.val
    if n < 128 then
      (utf8DecodeChars rest).map (fun cs => Char.ofNat n :: cs)
    else if n < 194 then none
    else if n < 224 then
      match rest with
      | b2 :: rest2 =>
        if isCont b2 then
          (utf8DecodeChars rest2).map (fun cs => Char.ofNat ((n - 192) * 64 + (b2.val - 128)) :: cs)
        else none
      | [] => none
    else if n < 240 then
      match rest with
      | b2 :: b3 :: rest3 =>
        if isCont b2 && isCont b3 then
          let cp := (n - 224) * 4096 + (b2.val - 128) * 64 + (b3.val - 128)
          if cp < 2048 ∨ (55296 ≤ cp ∧ cp < 57344) then none
          else (utf8DecodeChars rest3).map (fun cs => Char.ofNat cp :: cs)
        else none
      | _ => none
    else if n < 245 then
      match rest with
      | b2 :: b3 :: b4 :: rest4 =>
        if isCont b2 && isCont b3 && isCont b4 then
          let cp := (n - 240) * 262144 + (b2.val - 128) * 4096 + (b3.val - 128) * 64 + (b4.val - 128)
          if cp < 65536 ∨ 1114112 ≤ cp then none
          else (utf8DecodeChars rest4).map (fun cs => Char.ofNat cp :: cs)
        else none
      | _ => none
    else none

/-- `content.decode('utf-8')`, `none` on `UnicodeDecodeError`. -/
def utf8Decode (bs : List Byte) : Option String :=
  (utf8DecodeChars bs).map (fun cs => ⟨cs⟩)

/-- `content.decode('utf-8-sig')`: strip a UTF-8 BOM when present, then
decode as UTF-8. -/
def utf8SigDecode (bs : List Byte) : Option String :=
  match bs with
  | b1 :: b2 :: b3 :: rest =>
    if b1.val = 239 ∧ b2.val = 187 ∧ b3.val = 191 then utf8Decode rest else utf8Decode bs
  | _ => utf8Decode bs

/-- `content.decode('latin1')`: every byte maps to the code point of the same
value, so this decoding is total. -/
def latin1Decode (bs : List Byte) : String :=
  ⟨bs.map (fun b => Char.ofNat b.val)⟩

/-- `latin1` as a fallible decoder (it never actually fails). -/
def latin1DecodeOpt (bs : List Byte) : Option String :=
  some (latin1Decode bs)

/-- `content.decode('iso-8859-1')`: in Python this is the identical codec to
`latin1`. -/
def iso88591DecodeOpt (bs : List Byte) : Option String :=
  some (latin1Decode bs)

/-- The `for encoding in [...]` loop with its `try`/`except
UnicodeDecodeError: continue`: return the first decoding that succeeds,
`none` when the loop falls through to the error message. -/
def tryEncodings : List (List Byte → Option String) → List Byte → Option String
  | [], _ => none
  | dec :: rest, content =>
    match dec content with
    | some s => some s
    | none => tryEncodings rest content

/-- The encoding order attempted by both functions:
`['utf-8', 'utf-8-sig', 'latin1', 'iso-8859-1']`. -/
def encodingAttempts : List (List Byte → Option String) :=
  [utf8Decode, utf8SigDecode, latin1DecodeOpt, iso88591DecodeOpt]

/-- The decode stage of `fetch_xml` (lines 363-376). -/
def fetch_xml_decode (content : List Byte) : Option String :=
  tryEncodings encodingAttempts content

/-- The decode stage of `process_uploaded_file` (lines 264-277), textually
the same loop. -/
def process_uploaded_file_decode (content : List Byte) : Option String :=
  tryEncodings encodingAttempts content

/-! ## Specification-level reading of the leaf URL extraction, and concrete
documents used as witnesses and counterexamples -/

/-- The location value of one entry element as the specification describes
it: the textual content of the (namespace-agnostically resolved) location
child, trimmed; `""` when there is no location child. -/
def locationValue (e : XmlNode) : String :=
  pyStrip (((locChain e).map XmlNode.getText).getD "")

/-- Specification-level reading of the leaf URL extraction: the list of
non-empty trimmed location values of the entry elements.  The number of
distinct such values is `(specLocationValues roots).dedup.length`. -/
def specLocationValues (roots : List XmlNode) : List String :=
  ((entriesOf roots).map locationValue).filter (fun v => v ≠ "")

/-- A one-entry leaf sitemap whose single entry carries the given `lastmod`
text. -/
def mkLeafDocRoots (s : String) : List XmlNode :=
  [.elem "urlset"
    [.elem "url"
      [.elem "loc" [.text "https://example.com/page"],
       .elem "lastmod" [.text s]]]]

/-- The entry element of `mkLeafDocRoots`. -/
def urlEntryNode (s : String) : XmlNode :=
  .elem "url"
    [.elem "loc" [.text "https://example.com/page"],
     .elem "lastmod" [.text s]]

/-- A leaf sitemap with two entries sharing one trimmed location (one of them
CDATA-wrapped) and an entry whose location is whitespace-only. -/
def dupLeafRoots : List XmlNode :=
  [.elem "urlset"
    [.elem "url" [.elem "loc" [.text " https://example.com/a "]],
     .elem "url" [.elem "loc" [.cdata "https://example.com/a"]],
     .elem "url" [.elem "loc" [.text "   "]]]]

/-- A `<sitemap>` index child whose `lastmod` text is not a parseable date. -/
def badSitemapElem : XmlNode :=
  .elem "sitemap"
    [.elem "loc" [.text "https://example.com/s1.xml"],
     .elem "lastmod" [.text "not a date!"]]

/-- An index document containing only `badSitemapElem`. -/
def badIndexRoots : List XmlNode :=
  [.elem "sitemapindex" [badSitemapElem]]

/-- A `<sitemap>` index child with no location element at all (and an
unparseable `lastmod`, which must not matter for a skipped entry). -/
def noLocSitemapElem : XmlNode :=
  .elem "sitemap" [.elem "lastmod" [.text "not a date!"]]

/-- A well-formed `<sitemap>` index child with a location and no `lastmod`. -/
def goodSitemapElem : XmlNode :=
  .elem "sitemap" [.elem "loc" [.text "https://example.com/s2.xml"]]

/-- A concrete successful outcome used to exercise the merge loop. -/
def outcomeA : Outcome :=
  .success "https://a/s.xml"
    ⟨{"https://a/1"}, [⟨1705276800, some 0⟩], some TagsInfo.empty, true⟩ []

/-- A concrete failed outcome used to exercise the merge loop. -/
def outcomeB : Outcome :=
  .failure "https://b/s.xml" "Failed to fetch XML content" []

/-- The URL-set contribution of one outcome to the merge: a success
contributes its URL set, a failure contributes nothing. -/
def urlsContrib : Outcome → Finset String
  | .success _ res _ => res.urls
  | .failure _ _ _ => ∅

/-- The date contribution of one outcome to the merge, read as a multiset
(the specification consumes `all_dates` only as a multiset). -/
def datesContrib : Outcome → Multiset PyDateTime
  | .success _ res _ => (res.dates : Multiset PyDateTime)
  | .failure _ _ _ => 0

/-- The time-of-day-flag contribution of one outcome to the merge. -/
def timeContrib : Outcome → Bool
  | .success _ res _ => res.hasTime
  | .failure _ _ _ => false

/-- The URL sets of a list of outcomes, unioned. -/
def urlsUnion (l : List Outcome) : Finset String :=
  l.foldr (fun o s => urlsContrib o ∪ s) ∅

/-- The date multisets of a list of outcomes, summed. -/
def datesSum (l : List Outcome) : Multiset PyDateTime :=
  l.foldr (fun o m => datesContrib o + m) 0

/-- The time flags of a list of outcomes, ored. -/
def timeAny (l : List Outcome) : Bool :=
  l.foldr (fun o b => timeContrib o || b) false

/-! ## Supporting lemmas -/

theorem strAppendEmpty (s : String) : s ++ "" = s := by
  cases s with
  | mk data => show String.mk (data ++ []) = String.mk data
               rw [List.append_nil]

theorem outcome_isFailure_not_isSuccess (o : Outcome) : o.isFailure = !o.isSuccess := by
  cases o <;> rfl

/-! ## C10 -/

/-- C10: for every byte string handed to the charset-fallback loop of
`fetch_xml` or `process_uploaded_file`, decoding succeeds (latin-1 accepts
every byte sequence), so the `'no encoding matched'` error branch is
unreachable. -/
theorem decode_fallback_total (content : List Byte) :
    (fetch_xml_decode content).isSome = true
  ∧ (process_uploaded_file_decode content).isSome = true := by
  have h : (tryEncodings encodingAttempts content).isSome = true := by
    simp only [encodingAttempts, tryEncodings, latin1DecodeOpt]
    cases utf8Decode content <;> cases utf8SigDecode content <;> simp [tryEncodings, latin1DecodeOpt]
  exact ⟨h, h⟩

/-! ## C1 -/

/-- C1: the fan-out aggregation produces exactly one outcome per child URL
(so failures and successes together count the children); each child's
outcome is a function of that child's own behaviour alone, so one child's
fetch error, decode error or parse exception yields a `Failure` outcome for
that child only, never altering a sibling's outcome and never escaping the
aggregation (the outcome constructor is total over all behaviours). -/
theorem aggregate_outcome_per_child (children : List (String × ChildBehavior)) :
    (aggregateOutcomes children).countP Outcome.isFailure
      + (aggregateOutcomes children).countP Outcome.isSuccess = children.length
  ∧ (∀ i : Fin children.length,
      (aggregateOutcomes children)[(i : Nat)]? =
        some (fetch_and_parse_sitemap (children.get i).1 (children.get i).2))
  ∧ (∀ u msgs, (fetch_and_parse_sitemap u (.fetchFail msgs)).isFailure = true)
  ∧ (∀ u err, (fetch_and_parse_sitemap u (.raise err)).isFailure = true) := by
  refine ⟨?_, ?_, fun u msgs => rfl, fun u err => rfl⟩
  · induction children with
    | nil => rfl
    | cons c t ih =>
      simp only [aggregateOutcomes, List.map_cons, List.countP_cons, List.length_cons,
        List.countP_map] at *
      cases fetch_and_parse_sitemap c.1 c.2 <;>
        simp [Outcome.isFailure, Outcome.isSuccess] <;> omega
  · intro i
    simp [aggregateOutcomes, List.getElem?_map, List.getElem?_eq_getElem i.isLt]

/-! ## C3 -/

/-- C3 counterexample: input that is not well-formed XML does not make
`parse_sitemap` raise — the lenient parser recovers it (here to an empty
tree) and the function returns normally, so the claimed
`MalformedDocument` signal never happens. -/
theorem parse_sitemap_malformed_recovers :
    (SoupDoc.recovered []).isMalformed = true
  ∧ (parse_sitemap (some (SoupDoc.recovered []))).isOk = true := ⟨rfl, rfl⟩

/-- C3 (amended): the leaf sitemap parser never raises at all: malformed
individual entries are skipped, and input that is not well-formed XML is
recovered by the lenient XML parser into a (possibly empty) tree, yielding a
normal result — no `MalformedDocument` error is ever signalled. -/
theorem parse_sitemap_never_raises (x : Option SoupDoc) :
    (parse_sitemap x).isOk = true := by
  cases x <;> rfl

/-! ## C9 -/

/-- C9: falsy input (`None` or the empty string) yields
`(set(), [], None, False)` — in particular a `None` tag inventory — while
every well-formed input yields an actual (possibly empty) dictionary. -/
theorem falsy_input_none_tags :
    parse_sitemap none = .ok ⟨∅, [], none, false⟩
  ∧ ∀ (roots : List XmlNode) (r : ParseResult),
      parse_sitemap (some (SoupDoc.wellFormed roots)) = .ok r → r.tags.isSome = true := by
  refine ⟨rfl, fun roots r h => ?_⟩
  have : r = parseLeafSoup roots := by
    simpa [parse_sitemap, SoupDoc.roots] using h.symm
  rw [this]
  rfl

/-- C9 witness: the empty forest (a recovered or trivial document) gets a
`some` tag inventory. -/
theorem falsy_input_none_tags_witness :
    parse_sitemap (some (SoupDoc.wellFormed [])) = .ok (parseLeafSoup [])
  ∧ (parseLeafSoup []).tags.isSome = true :=
  ⟨rfl, falsy_input_none_tags.2 [] (parseLeafSoup []) rfl⟩

/-! ## C2 -/

theorem mergeStep_urls (acc : Agg) (o : Outcome) :
    (mergeStep acc o).all_urls = acc.all_urls ∪ urlsContrib o := by
  cases o with
  | failure u e m => simp [mergeStep, urlsContrib]
  | success u res m =>
    simp only [mergeStep, urlsContrib, apply_ite Agg.all_urls]
    split
    · split <;> split <;> simp_all
    · split <;> split <;> simp_all

theorem mergeStep_dates (acc : Agg) (o : Outcome) :
    ((mergeStep acc o).all_dates : Multiset PyDateTime) = (acc.all_dates : Multiset PyDateTime) + datesContrib o := by
  cases o with
  | failure u e m => simp [mergeStep, datesContrib]
  | success u res m =>
    simp only [mergeStep, datesContrib, apply_ite Agg.all_dates]
    split
    · split <;> split <;> simp_all
    · split <;> split <;> simp_all

theorem mergeStep_time (acc : Agg) (o : Outcome) :
    (mergeStep acc o).any_has_time_info = (acc.any_has_time_info || timeContrib o) := by
  cases o with
  | failure u e m => simp [mergeStep, timeContrib]
  | success u res m =>
    simp only [mergeStep, timeContrib, apply_ite Agg.any_has_time_info]
    split <;> simp_all

theorem mergeFold_urls (l : List Outcome) : ∀ acc : Agg,
    (l.foldl mergeStep acc).all_urls = acc.all_urls ∪ urlsUnion l := by
  induction l with
  | nil => intro acc; simp [urlsUnion]
  | cons o t ih =>
    intro acc
    simp only [List.foldl_cons, urlsUnion, List.foldr_cons]
    rw [ih, mergeStep_urls, Finset.union_assoc]
    rfl

theorem mergeFold_dates (l : List Outcome) : ∀ acc : Agg,
    ((l.foldl mergeStep acc).all_dates : Multiset PyDateTime)
      = (acc.all_dates : Multiset PyDateTime) + datesSum l := by
  induction l with
  | nil => intro acc; simp [datesSum]
  | cons o t ih =>
    intro acc
    simp only [List.foldl_cons, datesSum, List.foldr_cons]
    rw [ih, mergeStep_dates, add_assoc]
    rfl

theorem mergeFold_time (l : List Outcome) : ∀ acc : Agg,
    (l.foldl mergeStep acc).any_has_time_info = (acc.any_has_time_info || timeAny l) := by
  induction l with
  | nil => intro acc; simp [timeAny]
  | cons o t ih =>
    intro acc
    simp only [List.foldl_cons, timeAny, List.foldr_cons]
    rw [ih, mergeStep_time, Bool.or_assoc]
    rfl

theorem urlsUnion_perm {l l' : List Outcome} (h : l.Perm l') : urlsUnion l = urlsUnion l' := by
  induction h with
  | nil => rfl
  | cons x _ ih => simp only [urlsUnion, List.foldr_cons] at *; rw [ih]
  | swap x y t =>
    simp only [urlsUnion, List.foldr_cons]
    rw [Finset.union_left_comm]
  | trans _ _ ih1 ih2 => rw [ih1, ih2]

theorem datesSum_perm {l l' : List Outcome} (h : l.Perm l') : datesSum l = datesSum l' := by
  induction h with
  | nil => rfl
  | cons x _ ih => simp only [datesSum, List.foldr_cons] at *; rw [ih]
  | swap x y t =>
    simp only [datesSum, List.foldr_cons]
    rw [add_left_comm]
  | trans _ _ ih1 ih2 => rw [ih1, ih2]

theorem timeAny_perm {l l' : List Outcome} (h : l.Perm l') : timeAny l = timeAny l' := by
  induction h with
  | nil => rfl
  | cons x _ ih => simp only [timeAny, List.foldr_cons] at *; rw [ih]
  | swap x y t =>
    simp only [timeAny, List.foldr_cons]
    rw [Bool.or_left_comm]
  | trans _ _ ih1 ih2 => rw [ih1, ih2]

/-- C2: the merged aggregate — the union of success URL sets, the date
list read as a multiset, and the ored time-of-day flag — is invariant under
any permutation of the outcome completion order, and a `Failure` outcome
contributes nothing to the merge. -/
theorem merge_perm_invariant (l l' : List Outcome) (h : l.Perm l') :
    (mergeAll l).all_urls = (mergeAll l').all_urls
  ∧ ((mergeAll l).all_dates : Multiset PyDateTime) = ((mergeAll l').all_dates : Multiset PyDateTime)
  ∧ (mergeAll l).any_has_time_info = (mergeAll l').any_has_time_info
  ∧ (∀ acc u err msgs, mergeStep acc (.failure u err msgs) = acc) := by
  refine ⟨?_, ?_, ?_, fun acc u err msgs => rfl⟩
  · rw [mergeAll, mergeAll, mergeFold_urls, mergeFold_urls, urlsUnion_perm h]
  · rw [mergeAll, mergeAll, mergeFold_dates, mergeFold_dates, datesSum_perm h]
  · rw [mergeAll, mergeAll, mergeFold_time, mergeFold_time, timeAny_perm h]

/-- C2 witness: swapping the completion order of a concrete success and a
concrete failure leaves the merged URL set unchanged. -/
theorem merge_perm_invariant_witness :
    ([outcomeA, outcomeB].Perm [outcomeB, outcomeA])
  ∧ (mergeAll [outcomeA, outcomeB]).all_urls = (mergeAll [outcomeB, outcomeA]).all_urls :=
  ⟨List.Perm.swap outcomeB outcomeA [],
   (merge_perm_invariant [outcomeA, outcomeB] [outcomeB, outcomeA]
     (List.Perm.swap outcomeB outcomeA [])).1⟩

/-! ## C7 -/

theorem analyzeFoldAux (localOff now : Int) (dates : List PyDateTime) :
    ∀ st : DateStats,
      dates.foldl (analyzeStep localOff now) st
      = ⟨st.h24 + dates.countP (fun d => decide ((toUTC localOff d).wall ≥ now - 86400)),
         st.week + dates.countP (fun d => decide ((toUTC localOff d).wall ≥ now - 7 * 86400)),
         st.month + dates.countP (fun d => decide ((toUTC localOff d).wall ≥ now - 30 * 86400)),
         st.year + dates.countP (fun d => decide ((toUTC localOff d).wall ≥ now - 365 * 86400))⟩ := by
  induction dates with
  | nil => intro st; simp
  | cons d ds ih =>
    intro st
    rw [List.foldl_cons, ih]
    simp only [List.countP_cons, analyzeStep, decide_eq_true_eq, DateStats.mk.injEq]
    refine ⟨?_, ?_, ?_, ?_⟩ <;> (split_ifs <;> simp_all <;> omega)

/-- C7: the recency buckets of the statistics summarizer count each date in
every window it falls into (inclusive, overlapping windows), hence the counts
are monotone: `count(24h) ≤ count(week) ≤ count(month) ≤ count(year)` for
every date set. -/
theorem recency_buckets_inclusive_monotone (localOff now : Int) (dates : List PyDateTime) :
    analyze_dates localOff now dates
      = ⟨dates.countP (fun d => decide ((toUTC localOff d).wall ≥ now - 86400)),
         dates.countP (fun d => decide ((toUTC localOff d).wall ≥ now - 7 * 86400)),
         dates.countP (fun d => decide ((toUTC localOff d).wall ≥ now - 30 * 86400)),
         dates.countP (fun d => decide ((toUTC localOff d).wall ≥ now - 365 * 86400))⟩
  ∧ (analyze_dates localOff now dates).h24 ≤ (analyze_dates localOff now dates).week
  ∧ (analyze_dates localOff now dates).week ≤ (analyze_dates localOff now dates).month
  ∧ (analyze_dates localOff now dates).month ≤ (analyze_dates localOff now dates).year := by
  have hchar : analyze_dates localOff now dates
      = ⟨dates.countP (fun d => decide ((toUTC localOff d).wall ≥ now - 86400)),
         dates.countP (fun d => decide ((toUTC localOff d).wall ≥ now - 7 * 86400)),
         dates.countP (fun d => decide ((toUTC localOff d).wall ≥ now - 30 * 86400)),
         dates.countP (fun d => decide ((toUTC localOff d).wall ≥ now - 365 * 86400))⟩ := by
    rw [analyze_dates]
    split
    · rename_i hempty
      rw [List.isEmpty_iff] at hempty
      subst hempty
      simp
    · rw [analyzeFoldAux]
      simp
  refine ⟨hchar, ?_, ?_, ?_⟩ <;> rw [hchar] <;>
    · apply List.countP_mono_left
      intro d _ hp
      rw [decide_eq_true_eq] at hp ⊢
      omega

/-! ## C4 -/

theorem truthyOpt_none_of_falsy {o : Option XmlNode} (h : tagTruthy o = false) :
    truthyOpt o = none := by
  simp [truthyOpt, h]

theorem tagTruthy_of_truthyOpt_none {o : Option XmlNode} (h : truthyOpt o = none) :
    tagTruthy o = false := by
  by_cases hc : tagTruthy o = true
  · rw [truthyOpt, if_pos hc] at h
    subst h
    simpa [tagTruthy] using hc
  · simpa using hc

theorem truthyOpt_some_elim {o : Option XmlNode} {t : XmlNode} (h : truthyOpt o = some t) :
    o = some t ∧ tagTruthy o = true := by
  by_cases hc : tagTruthy o = true
  · rw [truthyOpt, if_pos hc] at h
    exact ⟨h, hc⟩
  · rw [truthyOpt, if_neg hc] at h
    simp at h

theorem indexEntries_length (l : List XmlNode) :
    ∀ es : List IndexEntry, indexEntries l = some es →
      es.length = l.countP (fun s => tagTruthy (findIn s "loc")) := by
  induction l with
  | nil =>
    intro es h
    simp only [indexEntries, Option.some.injEq] at h
    subst h
    simp
  | cons s t ih =>
    intro es h
    rw [List.countP_cons]
    unfold indexEntries at h
    cases hl : truthyOpt (findIn s "loc") with
    | none =>
      rw [hl] at h
      rw [tagTruthy_of_truthyOpt_none hl]
      simpa using ih es h
    | some lx =>
      simp only [hl] at h
      have htr : tagTruthy (findIn s "loc") = true := (truthyOpt_some_elim hl).2
      rw [htr]
      cases hm : truthyOpt (findIn s "lastmod") with
      | none =>
        simp only [hm] at h
        rcases Option.map_eq_some'.mp h with ⟨es', hes', heq⟩
        subst heq
        simp [ih es' hes']
      | some tm =>
        simp only [hm] at h
        cases hp : dateutilParse tm.getText with
        | none => simp only [hp] at h; exact Option.noConfusion h
        | some d =>
          simp only [hp] at h
          rcases Option.map_eq_some'.mp h with ⟨es', hes', heq⟩
          subst heq
          simp [ih es' hes']

/-- C4 counterexample: a child `<sitemap>` entry with a location and an
unparseable `lastmod` is not kept with the field omitted — the unguarded
`parser.parse` raises and the whole index parse aborts. -/
theorem parse_sitemap_index_bad_lastmod_aborts :
    parse_sitemap_index (SoupDoc.wellFormed badIndexRoots) = none := by rfl

/-- C4 (amended): index parsing produces exactly one entry per child
reference element with a (truthy) location — an entry without a location is
skipped without failing the document — but a present `lastmod` whose text
fails to parse makes the date parser raise out of the whole index parse
(aborting the document) instead of keeping the entry with only its `lastmod`
omitted. -/
theorem index_entries_per_location_strict :
    (∀ (s : XmlNode) (rest : List XmlNode), tagTruthy (findIn s "loc") = false →
        indexEntries (s :: rest) = indexEntries rest)
  ∧ (∀ (l : List XmlNode) (es : List IndexEntry), indexEntries l = some es →
        es.length = l.countP (fun s => tagTruthy (findIn s "loc")))
  ∧ (∀ (s : XmlNode) (rest : List XmlNode) (lx t : XmlNode),
        truthyOpt (findIn s "loc") = some lx →
        truthyOpt (findIn s "lastmod") = some t →
        dateutilParse t.getText = none →
        indexEntries (s :: rest) = none) := by
  refine ⟨?_, indexEntries_length, ?_⟩
  · intro s rest h
    unfold indexEntries
    simp only [truthyOpt_none_of_falsy h]
    cases rest <;> rfl
  · intro s rest lx t h1 h2 h3
    unfold indexEntries
    simp only [h1, h2, h3]

/-- C4 witness: the skip, count and abort behaviours at concrete index
children. -/
theorem index_entries_per_location_strict_witness :
    indexEntries [noLocSitemapElem] = indexEntries []
  ∧ ([(⟨"https://example.com/s2.xml", none⟩ : IndexEntry)]).length
      = [goodSitemapElem].countP (fun s => tagTruthy (findIn s "loc"))
  ∧ indexEntries [badSitemapElem] = none :=
  ⟨index_entries_per_location_strict.1 noLocSitemapElem [] rfl,
   index_entries_per_location_strict.2.1 [goodSitemapElem]
     [(⟨"https://example.com/s2.xml", none⟩ : IndexEntry)] rfl,
   index_entries_per_location_strict.2.2 badSitemapElem []
     (XmlNode.elem "loc" [.text "https://example.com/s1.xml"])
     (XmlNode.elem "lastmod" [.text "not a date!"]) rfl rfl rfl⟩

/-! ## Entry-loop projection lemmas -/

theorem updChangefreq_urls (st : LeafState) (e : XmlNode) :
    (updChangefreq st e).unique_urls = st.unique_urls := by
  rw [updChangefreq]; split_ifs <;> rfl

theorem updPriority_urls (st : LeafState) (e : XmlNode) :
    (updPriority st e).unique_urls = st.unique_urls := by
  rw [updPriority]; split_ifs <;> rfl

theorem updImage_urls (st : LeafState) (e : XmlNode) :
    (updImage st e).unique_urls = st.unique_urls := by
  rw [updImage]; split_ifs <;> rfl

theorem updVideo_urls (st : LeafState) (e : XmlNode) :
    (updVideo st e).unique_urls = st.unique_urls := by
  rw [updVideo]; split_ifs <;> rfl

theorem updNews_urls (st : LeafState) (e : XmlNode) :
    (updNews st e).unique_urls = st.unique_urls := by
  rw [updNews]; split_ifs <;> rfl

theorem updLanguage_urls (st : LeafState) (e : XmlNode) :
    (updLanguage st e).unique_urls = st.unique_urls := by
  rw [updLanguage]; split_ifs <;> rfl

theorem updMobile_urls (st : LeafState) (e : XmlNode) :
    (updMobile st e).unique_urls = st.unique_urls := by
  rw [updMobile]; split_ifs <;> rfl

theorem entryTagsUpdate_urls (st : LeafState) (e : XmlNode) :
    (entryTagsUpdate st e).unique_urls = st.unique_urls := by
  rw [entryTagsUpdate, updMobile_urls, updLanguage_urls, updNews_urls, updVideo_urls,
    updImage_urls, updPriority_urls, updChangefreq_urls]

theorem updChangefreq_dates (st : LeafState) (e : XmlNode) :
    (updChangefreq st e).last_mod_dates = st.last_mod_dates := by
  rw [updChangefreq]; split_ifs <;> rfl

theorem updPriority_dates (st : LeafState) (e : XmlNode) :
    (updPriority st e).last_mod_dates = st.last_mod_dates := by
  rw [updPriority]; split_ifs <;> rfl

theorem updImage_dates (st : LeafState) (e : XmlNode) :
    (updImage st e).last_mod_dates = st.last_mod_dates := by
  rw [updImage]; split_ifs <;> rfl

theorem updVideo_dates (st : LeafState) (e : XmlNode) :
    (updVideo st e).last_mod_dates = st.last_mod_dates := by
  rw [updVideo]; split_ifs <;> rfl

theorem updNews_dates (st : LeafState) (e : XmlNode) :
    (updNews st e).last_mod_dates = st.last_mod_dates := by
  rw [updNews]; split_ifs <;> rfl

theorem updLanguage_dates (st : LeafState) (e : XmlNode) :
    (updLanguage st e).last_mod_dates = st.last_mod_dates := by
  rw [updLanguage]; split_ifs <;> rfl

theorem updMobile_dates (st : LeafState) (e : XmlNode) :
    (updMobile st e).last_mod_dates = st.last_mod_dates := by
  rw [updMobile]; split_ifs <;> rfl

theorem entryTagsUpdate_dates (st : LeafState) (e : XmlNode) :
    (entryTagsUpdate st e).last_mod_dates = st.last_mod_dates := by
  rw [entryTagsUpdate, updMobile_dates, updLanguage_dates, updNews_dates, updVideo_dates,
    updImage_dates, updPriority_dates, updChangefreq_dates]

theorem entryLocUpdate_dates (st : LeafState) (e : XmlNode) :
    (entryLocUpdate st e).last_mod_dates = st.last_mod_dates := by
  rw [entryLocUpdate]
  cases truthyOpt (locChain e) with
  | none => rfl
  | some t =>
    dsimp only
    split_ifs <;> rfl

theorem processUrlEntry_urls (st : LeafState) (e : XmlNode) :
    (processUrlEntry st e).unique_urls = (entryLocUpdate st e).unique_urls := by
  cases h1 : truthyOpt (lastmodChain e) with
  | none => simp only [processUrlEntry, h1, entryTagsUpdate_urls]
  | some t =>
    cases h2 : dateutilParse (pyStrip t.getText) with
    | none => simp only [processUrlEntry, h1, h2]
    | some d => simp only [processUrlEntry, h1, h2, entryTagsUpdate_urls]

theorem processUrlEntry_dates_append (st : LeafState) (e t : XmlNode) (d : PyDateTime)
    (h1 : truthyOpt (lastmodChain e) = some t)
    (h2 : dateutilParse (pyStrip t.getText) = some d) :
    (processUrlEntry st e).last_mod_dates
      = st.last_mod_dates ++ [if d.tz = none then utcLocalize d else d] := by
  simp only [processUrlEntry, h1, h2, entryTagsUpdate_dates, entryLocUpdate_dates]

theorem processUrlEntry_dates_mem (st : LeafState) (e : XmlNode) :
    ∀ x ∈ (processUrlEntry st e).last_mod_dates,
      x ∈ st.last_mod_dates ∨ x.tz.isSome = true := by
  intro x hx
  cases h1 : truthyOpt (lastmodChain e) with
  | none =>
    simp only [processUrlEntry, h1, entryTagsUpdate_dates, entryLocUpdate_dates] at hx
    exact Or.inl hx
  | some t =>
    cases h2 : dateutilParse (pyStrip t.getText) with
    | none =>
      simp only [processUrlEntry, h1, h2, entryLocUpdate_dates] at hx
      exact Or.inl hx
    | some d =>
      rw [processUrlEntry_dates_append st e t d h1 h2] at hx
      rcases List.mem_append.mp hx with h | h
      · exact Or.inl h
      · right
        have hxd : x = if d.tz = none then utcLocalize d else d := by simpa using h
        cases hd : d.tz with
        | none => rw [hxd, if_pos hd]; rfl
        | some o => rw [hxd, if_neg (by simp [hd])]; simp [hd]

/-! ## C6 -/

/-- C6: a `lastmod` value that parses to a naive (zone-less) timestamp is
localized as UTC — not local time — before being appended to the date list;
in particular the one-entry documents with `lastmod` values `"2024-01-15"`
and `"2024-01-15T00:00:00Z"` produce identical date lists, hence identical
recency-bucket counts at every reference instant. -/
theorem naive_lastmod_localized_utc :
    (∀ (st : LeafState) (e t : XmlNode) (d : PyDateTime),
        truthyOpt (lastmodChain e) = some t →
        dateutilParse (pyStrip t.getText) = some d →
        d.tz = none →
        (processUrlEntry st e).last_mod_dates = st.last_mod_dates ++ [utcLocalize d])
  ∧ (parseLeafSoup (mkLeafDocRoots "2024-01-15")).dates
      = (parseLeafSoup (mkLeafDocRoots "2024-01-15T00:00:00Z")).dates
  ∧ ∀ localOff now : Int,
      analyze_dates localOff now (parseLeafSoup (mkLeafDocRoots "2024-01-15")).dates
        = analyze_dates localOff now (parseLeafSoup (mkLeafDocRoots "2024-01-15T00:00:00Z")).dates := by
  have heq : (parseLeafSoup (mkLeafDocRoots "2024-01-15")).dates
      = (parseLeafSoup (mkLeafDocRoots "2024-01-15T00:00:00Z")).dates := by decide
  refine ⟨?_, heq, fun localOff now => by rw [heq]⟩
  intro st e t d h1 h2 h3
  rw [processUrlEntry_dates_append st e t d h1 h2, if_pos h3]

/-- C6 witness: the concrete date-only string, parsed naive and localized. -/
theorem naive_lastmod_localized_utc_witness :
    (processUrlEntry ⟨∅, [], false, TagsInfo.empty⟩ (urlEntryNode "2024-01-15")).last_mod_dates
      = [] ++ [utcLocalize ⟨1705276800, none⟩] :=
  naive_lastmod_localized_utc.1 ⟨∅, [], false, TagsInfo.empty⟩ (urlEntryNode "2024-01-15")
    (XmlNode.elem "lastmod" [.text "2024-01-15"]) ⟨1705276800, none⟩ rfl (by decide) rfl

/-! ## C8 -/

theorem parse_dates_invariant_aux (es : List XmlNode) : ∀ st : LeafState,
    (∀ x ∈ st.last_mod_dates, x.tz.isSome = true) →
    ∀ x ∈ (es.foldl processUrlEntry st).last_mod_dates, x.tz.isSome = true := by
  induction es with
  | nil => intro st h; simpa using h
  | cons e es ih =>
    intro st h
    rw [List.foldl_cons]
    apply ih
    intro x hx
    rcases processUrlEntry_dates_mem st e x hx with hmem | haware
    · exact h x hmem
    · exact haware

/-- C8: every timestamp in the `modificationDates` list returned by the leaf
parser is timezone-aware: naive parses are localized to UTC before being
appended, and failed parses are never appended. -/
theorem modification_dates_tz_aware (x : Option SoupDoc) (r : ParseResult)
    (h : parse_sitemap x = .ok r) :
    ∀ d ∈ r.dates, d.tz.isSome = true := by
  cases x with
  | none =>
    simp only [parse_sitemap, Except.ok.injEq] at h
    intro d hd
    rw [← h] at hd
    simp at hd
  | some doc =>
    simp only [parse_sitemap, Except.ok.injEq] at h
    intro d hd
    rw [← h] at hd
    have hinv := parse_dates_invariant_aux (entriesOf doc.roots)
      ⟨∅, [], false, TagsInfo.empty⟩ (by simp)
    exact hinv d (by simpa [parseLeafSoup] using hd)

/-- C8 witness: the concrete document with a naive date yields the aware
timestamp `1705276800 UTC`. -/
theorem modification_dates_tz_aware_witness :
    ((⟨1705276800, some 0⟩ : PyDateTime) ∈
        (parseLeafSoup (mkLeafDocRoots "2024-01-15")).dates)
  ∧ (⟨1705276800, some 0⟩ : PyDateTime).tz.isSome = true :=
  ⟨by decide,
   modification_dates_tz_aware (some (SoupDoc.wellFormed (mkLeafDocRoots "2024-01-15")))
     (parseLeafSoup (mkLeafDocRoots "2024-01-15")) rfl ⟨1705276800, some 0⟩ (by decide)⟩

/-! ## C5 -/

theorem headMem {α : Type} {l : List α} {a : α} (h : l.head? = some a) : a ∈ l := by
  cases l with
  | nil => simp at h
  | cons x xs =>
    simp only [List.head?_cons, Option.some.injEq] at h
    subst h
    exact List.mem_cons_self x xs

theorem findIn_shape {x : XmlNode} {name : String} {t : XmlNode}
    (h : findIn x name = some t) : ∃ cs, t = XmlNode.elem name cs := by
  have hm : t ∈ findAllIn x name := headMem h
  have hp := List.of_mem_filter hm
  cases t with
  | elem n cs =>
    simp only [matchesName, decide_eq_true_eq] at hp
    subst hp
    exact ⟨cs, rfl⟩
  | text s => simp [matchesName] at hp
  | cdata s => simp [matchesName] at hp

theorem pyOr_eq (a b : Option XmlNode) : pyOr a b = a ∨ pyOr a b = b := by
  rw [pyOr]
  split_ifs <;> simp

theorem locChain_shape {e t : XmlNode} (h : locChain e = some t) :
    ∃ n cs, t = XmlNode.elem n cs := by
  rcases pyOr_eq (findIn e "loc") (pyOr (findIn e "ns:loc") (findIn e "default:loc"))
    with h1 | h1 <;> rw [locChain] at h <;> rw [h1] at h
  · rcases findIn_shape h with ⟨cs, rfl⟩
    exact ⟨_, _, rfl⟩
  · rcases pyOr_eq (findIn e "ns:loc") (findIn e "default:loc") with h2 | h2 <;> rw [h2] at h <;>
      (rcases findIn_shape h with ⟨cs, rfl⟩; exact ⟨_, _, rfl⟩)

theorem entryLocUpdate_spec (st : LeafState) (e : XmlNode) :
    (entryLocUpdate st e).unique_urls =
      if locationValue e = "" then st.unique_urls
      else insert (locationValue e) st.unique_urls := by
  cases h : truthyOpt (locChain e) with
  | none =>
    have hv : locationValue e = "" := by
      have hf : tagTruthy (locChain e) = false := tagTruthy_of_truthyOpt_none h
      rw [locationValue]
      cases hc : locChain e with
      | none => rfl
      | some t =>
        rcases locChain_shape hc with ⟨n, cs, rfl⟩
        rw [hc] at hf
        have hcs : cs = [] := by
          simpa [tagTruthy, XmlNode.contents, List.isEmpty_iff] using hf
        subst hcs
        rfl
    rw [entryLocUpdate, h, hv]
    simp
  | some t =>
    rcases truthyOpt_some_elim h with ⟨hc, _⟩
    have hv : locationValue e = pyStrip t.getText := by rw [locationValue, hc]; rfl
    rw [entryLocUpdate, h, hv]
    dsimp only
    by_cases hne : pyStrip t.getText = "" <;> simp [hne]

theorem parse_urls_fold (es : List XmlNode) : ∀ st : LeafState,
    (es.foldl processUrlEntry st).unique_urls
      = st.unique_urls ∪ ((es.map locationValue).filter (fun v => v ≠ "")).toFinset := by
  induction es with
  | nil => intro st; simp
  | cons e es ih =>
    intro st
    rw [List.foldl_cons, ih, processUrlEntry_urls, entryLocUpdate_spec]
    simp only [List.map_cons, List.filter_cons]
    by_cases hv : locationValue e = ""
    · simp [hv]
    · simp only [hv, if_neg hv, decide_not]
      simp only [hv, decide_False, Bool.not_false, if_true, List.toFinset_cons,
        Finset.insert_union, Finset.union_insert]
      simp [hv]

/-- C5: the URL set returned for a leaf document is exactly the set of
distinct non-empty trimmed location values of its entries (CDATA unwrapped,
namespace-prefixed variants resolved), so its size equals the number of
distinct such values: duplicated `<loc>` values contribute one element and
whitespace-only locations contribute none. -/
theorem leaf_urls_distinct_locations (roots : List XmlNode) (r : ParseResult)
    (h : parse_sitemap (some (SoupDoc.wellFormed roots)) = .ok r) :
    r.urls = (specLocationValues roots).toFinset
  ∧ r.urls.card = (specLocationValues roots).dedup.length := by
  have hr : r = parseLeafSoup roots := by
    simpa [parse_sitemap, SoupDoc.roots] using h.symm
  subst hr
  have hu : (parseLeafSoup roots).urls = (specLocationValues roots).toFinset := by
    simp only [parseLeafSoup, specLocationValues]
    rw [parse_urls_fold]
    simp
  exact ⟨hu, by rw [hu, List.card_toFinset]⟩

/-- C5 witness: a document with two entries sharing one location (one
CDATA-wrapped) and a whitespace-only location yields a singleton URL set. -/
theorem leaf_urls_distinct_locations_witness :
    ((parseLeafSoup dupLeafRoots).urls = (specLocationValues dupLeafRoots).toFinset
      ∧ (parseLeafSoup dupLeafRoots).urls.card = (specLocationValues dupLeafRoots).dedup.length)
  ∧ (parseLeafSoup dupLeafRoots).urls.card = 1 :=
  ⟨leaf_urls_distinct_locations dupLeafRoots (parseLeafSoup dupLeafRoots) rfl, by decide⟩
